import Mathlib

/-!
Verification of the structured-record ("Serializable") layer of the pyrlp
repository, shallowly embedded from `src/rlp/sedes/serializable.py` and
`src/rlp/exceptions.py`.

Python field values are modelled by the inductive `Value`: integer atoms,
mutable ordered sequences (`list`) and immutable ordered sequences (`tuple`).
Python's builtin `hash` is modelled faithfully for this fragment (CPython's
int hash modulo 2^61-1 and the xxHash-style tuple combinator modulo 2^64);
lists are unhashable, which `pyHash` models by returning `none` (a raised
`TypeError`).
-/

namespace PyRlp

/-- A Python value as used for record fields: an int, a (mutable) list, or an
(immutable) tuple. -/
inductive Value where
  | int (n : Nat)
  | list (items : List Value)
  | tuple (items : List Value)
deriving Repr

mutual

def valueDecEq : (a b : Value) → Decidable (a = b)
  | .int m, .int n =>
    match Nat.decEq m n with
    | isTrue h => isTrue (h ▸ rfl)
    | isFalse h => isFalse (fun he => h (Value.int.inj he))
  | .list as, .list bs =>
    match valueListDecEq as bs with
    | isTrue h => isTrue (h ▸ rfl)
    | isFalse h => isFalse (fun he => h (Value.list.inj he))
  | .tuple as, .tuple bs =>
    match valueListDecEq as bs with
    | isTrue h => isTrue (h ▸ rfl)
    | isFalse h => isFalse (fun he => h (Value.tuple.inj he))
  | .int _, .list _ => isFalse (fun h => Value.noConfusion h)
  | .int _, .tuple _ => isFalse (fun h => Value.noConfusion h)
  | .list _, .int _ => isFalse (fun h => Value.noConfusion h)
  | .list _, .tuple _ => isFalse (fun h => Value.noConfusion h)
  | .tuple _, .int _ => isFalse (fun h => Value.noConfusion h)
  | .tuple _, .list _ => isFalse (fun h => Value.noConfusion h)

def valueListDecEq : (as bs : List Value) → Decidable (as = bs)
  | [], [] => isTrue rfl
  | [], _ :: _ => isFalse (fun h => List.noConfusion h)
  | _ :: _, [] => isFalse (fun h => List.noConfusion h)
  | a :: as, b :: bs =>
    match valueDecEq a b, valueListDecEq as bs with
    | isTrue h1, isTrue h2 => isTrue (h1 ▸ h2 ▸ rfl)
    | isFalse h1, _ => isFalse (fun he => h1 (List.head_eq_of_cons_eq he))
    | _, isFalse h2 => isFalse (fun he => h2 (List.tail_eq_of_cons_eq he))

end

instance : DecidableEq Value := valueDecEq

mutual

/-- Embeds `make_immutable` (serializable.py lines 332-336): a list is
converted to a tuple of the recursively converted items; any other value is
returned unchanged. -/
def makeImmutable : Value → Value
  | .int n => .int n
  | .list vs => .tuple (makeImmutableList vs)
  | .tuple vs => .tuple vs

/-- The tuple-comprehension `tuple(make_immutable(item) for item in value)`. -/
def makeImmutableList : List Value → List Value
  | [] => []
  | v :: vs => makeImmutable v :: makeImmutableList vs

end

mutual

/-- Python `==` on this fragment: ints compare by value, a list compares equal
only to a list and a tuple only to a tuple, elementwise; everything else is
unequal. -/
def pyEq : Value → Value → Bool
  | .int a, .int b => a == b
  | .list as, .list bs => pyEqList as bs
  | .tuple as, .tuple bs => pyEqList as bs
  | _, _ => false

/-- Elementwise Python `==` of two ordered sequences (equal length required). -/
def pyEqList : List Value → List Value → Bool
  | [], [] => true
  | a :: as, b :: bs => pyEq a b && pyEqList as bs
  | _, _ => false

end

mutual

/-- `true` when no `list` constructor occurs anywhere in the value, i.e. the
value is fully immutable (and therefore hashable in Python). -/
def listFree : Value → Bool
  | .int _ => true
  | .list _ => false
  | .tuple vs => listFreeAll vs

def listFreeAll : List Value → Bool
  | [] => true
  | v :: vs => listFree v && listFreeAll vs

end

/-- CPython's hash modulus for integers: 2^61 - 1. -/
def pyHashModulus : Nat := 2 ^ 61 - 1

/-- xxHash prime 1, as used by CPython's tuple hash. -/
def xxPrime1 : Nat := 11400714785074694791

/-- xxHash prime 2. -/
def xxPrime2 : Nat := 14029467366897019727

/-- xxHash prime 5. -/
def xxPrime5 : Nat := 2870177450012600261

/-- 64-bit rotate left by 31 (`(x << 31) | (x >> 33)` on a 64-bit word). -/
def xxRotate (x : Nat) : Nat := (x % 2 ^ 33) * 2 ^ 31 + x / 2 ^ 33

/-- One round of CPython's tuple-hash accumulator. -/
def xxRound (acc lane : Nat) : Nat :=
  (xxRotate ((acc + lane * xxPrime2) % 2 ^ 64) * xxPrime1) % 2 ^ 64

/-- Finalization of CPython's tuple hash: add `len ^ (P5 ^ 3527539)` and map
the reserved value 2^64-1 to 1546275796. -/
def xxFinal (acc len : Nat) : Nat :=
  let out := (acc + Nat.xor len (Nat.xor xxPrime5 3527539)) % 2 ^ 64
  if out = 2 ^ 64 - 1 then 1546275796 else out

mutual

/-- Python's builtin `hash` on this fragment (CPython semantics): a
non-negative int hashes to itself modulo 2^61-1, a tuple hashes its elements
with the xxHash-based combinator, and a list is unhashable (`none`, a raised
`TypeError`). -/
def pyHash : Value → Option Nat
  | .int n => some (n % pyHashModulus)
  | .list _ => none
  | .tuple vs =>
    match pyHashFold xxPrime5 vs with
    | none => none
    | some acc => some (xxFinal acc vs.length)

def pyHashFold (acc : Nat) : List Value → Option Nat
  | [] => some acc
  | v :: vs =>
    match pyHash v with
    | none => none
    | some lane => pyHashFold (xxRound acc lane) vs

end

/-- A constructed record: its concrete `Serializable` subclass (`cls`), its
schema's ordered field names, and the stored field values (which
`BaseSerializable.__init__` stores after `make_immutable`). -/
structure Record where
  cls : String
  names : List String
  values : List Value
deriving Repr, DecidableEq

/-- `hash(tuple(self))` (serializable.py line 268): iterating a record yields
its field values in schema order, so the record hashes as the tuple of its
stored values. `none` models the `TypeError` raised when a stored value is
unhashable. -/
def recordHash (r : Record) : Option Nat := pyHash (.tuple r.values)

/-- Embeds `BaseSerializable.__eq__` (lines 252-253):
`isinstance(other, Serializable) and hash(self) == hash(other)`. Both
arguments here are records, so the `isinstance` test is true; the result is
`none` when either hash raises, else the comparison of the two hashes. The
concrete subclass (`cls`) is never consulted. -/
def recordEq (r1 r2 : Record) : Option Bool := do
  let h1 ← recordHash r1
  let h2 ← recordHash r2
  pure (h1 == h2)

mutual

/-- The specification's reading of the immutable projection ("any mutable
ordered sequence, at any nesting depth, is converted"): unlike
`makeImmutable`, this converts lists nested inside tuples as well. Kept only
to compare the code's projection against the specification's words. -/
def deepImmutable : Value → Value
  | .int n => .int n
  | .list vs => .tuple (deepImmutableList vs)
  | .tuple vs => .tuple (deepImmutableList vs)

def deepImmutableList : List Value → List Value
  | [] => []
  | v :: vs => deepImmutable v :: deepImmutableList vs

end

/-- The `TypeError`s that `validate_args_and_kwargs` (lines 43-64) and the
argument-count check of `BaseSerializable.__init__` (lines 212-219) raise,
with the data each message carries. -/
inductive ArgsError where
  | duplicateArgNames (names : List String)
  | duplicateKwargs (names : List String)
  | unknownKwargs (names : List String)
  | missingKwargs (names : List String)
  | countMismatch (expected got : Nat) (missing : List String)
deriving Repr, DecidableEq

/-- Embeds `_get_duplicates` (lines 34-40): the values occurring more than
once, each listed once. -/
def getDuplicates (values : List String) : List String :=
  (values.filter (fun v => 1 < values.count v)).eraseDups

/-- Embeds `validate_args_and_kwargs` (lines 43-64). `kwargs` models a Python
dict as an association list with distinct keys; the four checks run in the
source's order. The source's sets are modelled as lists whose membership is
the set membership (a raised error's payload may repeat a name; only which
names occur is meaningful). -/
def validateArgsAndKwargs (args : List Value) (kwargs : List (String × Value))
    (argNames : List String) (allowMissing : Bool) : Except ArgsError Unit :=
  let dups := getDuplicates argNames
  if dups ≠ [] then .error (.duplicateArgNames dups)
  else
    let neededKwargs := argNames.drop args.length
    let usedKwargs := argNames.take args.length
    let duplicateKw := (kwargs.map Prod.fst).filter (· ∈ usedKwargs)
    if duplicateKw ≠ [] then .error (.duplicateKwargs duplicateKw)
    else
      let unknownKw := (kwargs.map Prod.fst).filter (· ∉ argNames)
      if unknownKw ≠ [] then .error (.unknownKwargs unknownKw)
      else
        let missingKw := neededKwargs.filter (· ∉ kwargs.map Prod.fst)
        if !allowMissing && missingKw ≠ [] then .error (.missingKwargs missingKw)
        else .ok ()

/-- Python dict indexing `kwargs[n]`, total here; every call site has already
validated that `n` is a key of `kwargs`. -/
def kwargsGet (kwargs : List (String × Value)) (n : String) : Value :=
  (kwargs.lookup n).getD (.int 0)

/-- Embeds `merge_kwargs_to_args` (lines 67-78): validate, then yield the
positional arguments followed by the keyword value of each remaining field
name in schema order. -/
def mergeKwargsToArgs (args : List Value) (kwargs : List (String × Value))
    (argNames : List String) (allowMissing : Bool) : Except ArgsError (List Value) :=
  match validateArgsAndKwargs args kwargs argNames allowMissing with
  | .error e => .error e
  | .ok _ => .ok (args ++ (argNames.drop args.length).map (kwargsGet kwargs))

/-- Embeds `BaseSerializable.__init__` (lines 206-222) for a class `cls` whose
schema declares `names`: merge keyword arguments when any are given, check the
argument count, then store each field value after `make_immutable`. -/
def mkSerializable (cls : String) (names : List String) (args : List Value)
    (kwargs : List (String × Value)) : Except ArgsError Record :=
  match (if kwargs ≠ [] then mergeKwargsToArgs args kwargs names false else .ok args) with
  | .error e => .error e
  | .ok fieldValues =>
    if fieldValues.length ≠ names.length then
      .error (.countMismatch names.length fieldValues.length (names.drop fieldValues.length))
    else
      .ok ⟨cls, names, fieldValues.map makeImmutable⟩

/-- `getattr(record, field_name)`: the stored value of the named field. Total
model of the generated field property; every use is on a schema field name of
a well-formed record, where the lookup succeeds. -/
def Record.getField (r : Record) (n : String) : Value :=
  ((r.names.zip r.values).lookup n).getD (.int 0)

/-- The changeset state machine (lines 104-107). -/
inductive ChangesetState where
  | INITIALIZED
  | OPEN
  | CLOSED
deriving Repr, DecidableEq

/-- A changeset (lines 133-200): the original record, the staged edits
(`__diff__`, a dict from field name to staged value), and the state. -/
structure Changeset where
  original : Record
  diff : List (String × Value)
  state : ChangesetState
deriving Repr, DecidableEq

/-- Python dict assignment `d[k] = v`: replace the value of an existing key,
else append the new binding. -/
def dictInsert (d : List (String × Value)) (k : String) (v : Value) :
    List (String × Value) :=
  if d.any (fun p => p.1 == k) then d.map (fun p => if p.1 == k then (k, v) else p)
  else d ++ [(k, v)]

/-- Embeds `ChangesetField.__get__` (lines 116-125): reading a field raises
unless the changeset is OPEN; when OPEN it returns the staged value if one is
present, else the original record's value for that field. -/
def csGetField (cs : Changeset) (f : String) : Except String Value :=
  if cs.state ≠ .OPEN then
    .error "Changeset is not active.  Attribute access not allowed"
  else
    match cs.diff.lookup f with
    | some v => .ok v
    | none => .ok (cs.original.getField f)

/-- Embeds `ChangesetField.__set__` (lines 127-130): writing a field raises
unless the changeset is OPEN; when OPEN it stages the value in `__diff__`. -/
def csSetField (cs : Changeset) (f : String) (v : Value) : Except String Changeset :=
  if cs.state ≠ .OPEN then
    .error "Changeset is not active.  Attribute access not allowed"
  else
    .ok { cs with diff := dictInsert cs.diff f v }

/-- Errors a changeset operation can raise: the `ValueError`s of the state
machine, or a `TypeError` from the record constructor run by `build_rlp`. -/
inductive CsError where
  | stateError (msg : String)
  | ctorError (e : ArgsError)
deriving Repr, DecidableEq

/-- Embeds `BaseChangeset.build_rlp` (lines 151-160): when OPEN, build the
per-field keyword arguments (staged value if staged, else the original's
value) and run the original's class constructor on them; otherwise raise. -/
def buildRlp (cs : Changeset) : Except CsError Record :=
  if cs.state = .OPEN then
    let fieldKwargs := cs.original.names.map
      (fun n => (n, (cs.diff.lookup n).getD (cs.original.getField n)))
    match mkSerializable cs.original.cls cs.original.names [] fieldKwargs with
    | .ok r => .ok r
    | .error e => .error (.ctorError e)
  else
    .error (.stateError "Cannot open Changeset which is not in the OPEN state")

/-- Embeds `BaseChangeset.open` (lines 162-166). -/
def csOpen (cs : Changeset) : Except CsError Changeset :=
  if cs.state = .INITIALIZED then .ok { cs with state := .OPEN }
  else .error (.stateError "Cannot open Changeset which is not in the INITIALIZED state")

/-- Embeds `BaseChangeset.close` (lines 168-172). -/
def csClose (cs : Changeset) : Except CsError Changeset :=
  if cs.state = .OPEN then .ok { cs with state := .CLOSED }
  else .error (.stateError "Cannot close Changeset which is not in the OPEN state")

/-- Embeds `BaseChangeset.commit` (lines 146-149): build the new record via
`build_rlp`, close the changeset, and return the new record (paired here with
the changeset's post-state). -/
def csCommit (cs : Changeset) : Except CsError (Record × Changeset) :=
  match buildRlp cs with
  | .error e => .error e
  | .ok obj =>
    match csClose cs with
    | .error e => .error e
    | .ok cs2 => .ok (obj, cs2)

/-- The `TypeError`s of `SerializableBase.__new__` with the data each message
carries (duplicate fields, lines 422-428; invalid identifiers, lines 430-442;
missing parent fields, lines 444-460). -/
inductive ClassError where
  | duplicateFields (names : List String)
  | invalidFieldNames (names : List String)
  | missingFields (names : List String)
deriving Repr, DecidableEq

/-- Embeds `_is_valid_identifier` (lines 363-370) on the ASCII fragment of
Python's `^[^\d\W]\w*\Z` regex: nonempty, first character a letter or
underscore, remaining characters letters, digits or underscores. -/
def isValidIdentifier (s : String) : Bool :=
  match s.data with
  | [] => false
  | c :: cs => (c.isAlpha || c == '_') && cs.all (fun d => d.isAlphanum || d == '_')

/-- Embeds the field validation of `SerializableBase.__new__` (lines 410-460)
for a class that declares its own `fields` and has `Serializable` parents:
reject duplicated names, then invalid identifiers, then any parent field name
missing from the declared set; on success the schema's field names are fixed.
All of this runs at class-declaration time, before any instance exists. -/
def mkSerializableClass (parentFieldNames : List (List String))
    (fieldNames : List String) : Except ClassError (List String) :=
  let dups := getDuplicates fieldNames
  if dups ≠ [] then .error (.duplicateFields dups)
  else
    let invalid := fieldNames.filter (fun n => !isValidIdentifier n)
    if invalid ≠ [] then .error (.invalidFieldNames invalid)
    else
      let parentAll := parentFieldNames.flatten
      let missing := parentAll.filter (· ∉ fieldNames)
      if missing ≠ [] then .error (.missingFields missing)
      else .ok fieldNames

/-- A `ListSerializationError` (exceptions.py lines 42-64) as the `List` sedes
raises it: either an arity mismatch (no index, no element exception) or a
failure of the element at a specific index (index and element exception set
together). -/
inductive ListSerError where
  | arityMismatch (expected got : Nat)
  | elementAt (index : Nat)
deriving Repr, DecidableEq

/-- Per-position serialization from position `i` on: stop at the first failing
element and tag it with its index. -/
def listSerializeFrom (i : Nat) : List (Value → Option Value) → List Value →
    Except ListSerError (List Value)
  | [], _ => .ok []
  | _ :: _, [] => .ok []
  | s :: ss, v :: vs =>
    match s v with
    | none => .error (.elementAt i)
    | some w =>
      match listSerializeFrom (i + 1) ss vs with
      | .ok ws => .ok (w :: ws)
      | .error e => .error e

/-- Modelled from the spec: `List.serialize` lives in `rlp/sedes/lists.py`,
which is not under `src/`; §4.2 of the specification says: if the value count
differs from the arity, fail with a generic (non-indexed) list-serialization
error; else serialize each position in order, wrapping the first failure into
an index-tagged error; concatenate the successful results. -/
def listSerialize (sedes : List (Value → Option Value)) (vals : List Value) :
    Except ListSerError (List Value) :=
  if vals.length ≠ sedes.length then .error (.arityMismatch sedes.length vals.length)
  else listSerializeFrom 0 sedes vals

/-- An `ObjectSerializationError` (exceptions.py lines 67-97) built from a
wrapped list error: `field` and the message shape. -/
structure ObjSerError where
  field : Option String
  message : String
deriving Repr, DecidableEq

/-- Embeds `ObjectSerializationError.__init__` (lines 77-97) for a wrapped
list exception: when the list error carries no element exception the field is
`None` with the "underlying list" message; otherwise the field is the schema
field name at the wrapped error's index. -/
def resolveObjError (fieldNames : List String) : ListSerError → ObjSerError
  | .arityMismatch _ _ => ⟨none, "Serialization failed because of underlying list"⟩
  | .elementAt i => ⟨fieldNames[i]?, "Serialization failed because of field"⟩

/-- Embeds `BaseSerializable.serialize` (lines 279-284): run the schema's
`List` sedes over the record's ordered field values; wrap a
`ListSerializationError` into an `ObjectSerializationError`. -/
def serializableSerialize (fieldNames : List String)
    (sedes : List (Value → Option Value)) (r : Record) :
    Except ObjSerError (List Value) :=
  match listSerialize sedes r.values with
  | .ok out => .ok out
  | .error e => .error (resolveObjError fieldNames e)

/-- Embeds `BaseSerializable.__hash__` (lines 264-270) with its `_hash_cache`
made explicit: a call takes the cache state, computes `hash(tuple(self))` only
when the cache is empty, and returns the hash together with the new cache
state (`none` models the `TypeError` when a stored value is unhashable). -/
def cachedHashCall (r : Record) (cache : Option Nat) : Option (Nat × Option Nat) :=
  match cache with
  | some h => some (h, some h)
  | none =>
    match recordHash r with
    | some h => some (h, some h)
    | none => none

/-! ### Helper lemmas -/

theorem getDuplicates_eq_nil_of_nodup {l : List String} (hl : l.Nodup) :
    getDuplicates l = [] := by
  have hf : l.filter (fun v => decide (1 < l.count v)) = [] := by
    rw [List.filter_eq_nil_iff]
    intro a _
    have := List.nodup_iff_count_le_one.mp hl a
    simp only [decide_eq_true_eq]
    omega
  unfold getDuplicates
  rw [hf]
  rfl

theorem lookup_map_pair {n : String} {f : String → Value} {names : List String}
    (h : n ∈ names) : (names.map (fun m => (m, f m))).lookup n = some (f n) := by
  induction names with
  | nil => simp at h
  | cons m rest ih =>
    simp only [List.map_cons, List.lookup_cons]
    by_cases he : n = m
    · subst he; simp
    · have hne : (n == m) = false := by simp [he]
      simp only [hne]
      rcases List.mem_cons.mp h with h1 | h1
      · exact absurd h1 he
      · exact ih h1

mutual

theorem pyEq_listFree_eq : ∀ (x y : Value), listFree y = true → pyEq x y = true → x = y
  | .int m, .int n, _, h => by
    have : m = n := by simpa [pyEq] using h
    simp [this]
  | .int _, .list _, hf, _ => by simp [listFree] at hf
  | .int _, .tuple _, _, h => by simp [pyEq] at h
  | .list _, .int _, _, h => by simp [pyEq] at h
  | .list _, .list _, hf, _ => by simp [listFree] at hf
  | .list _, .tuple _, _, h => by simp [pyEq] at h
  | .tuple _, .int _, _, h => by simp [pyEq] at h
  | .tuple _, .list _, hf, _ => by simp [listFree] at hf
  | .tuple xs, .tuple ys, hf, h => by
    have hl : pyEqList xs ys = true := by simpa [pyEq] using h
    have hf2 : listFreeAll ys = true := by simpa [listFree] using hf
    have := pyEqList_listFree_eq xs ys hf2 hl
    simp [this]

theorem pyEqList_listFree_eq :
    ∀ (xs ys : List Value), listFreeAll ys = true → pyEqList xs ys = true → xs = ys
  | [], [], _, _ => rfl
  | [], _ :: _, _, h => by simp [pyEqList] at h
  | _ :: _, [], _, h => by simp [pyEqList] at h
  | x :: xs, y :: ys, hf, h => by
    have h1 : pyEq x y = true ∧ pyEqList xs ys = true := by
      simpa [pyEqList, Bool.and_eq_true] using h
    have hf1 : listFree y = true ∧ listFreeAll ys = true := by
      simpa [listFreeAll, Bool.and_eq_true] using hf
    have e1 := pyEq_listFree_eq x y hf1.1 h1.1
    have e2 := pyEqList_listFree_eq xs ys hf1.2 h1.2
    simp [e1, e2]

end

theorem makeImmutable_of_listFree {v : Value} (h : listFree v = true) :
    makeImmutable v = v := by
  cases v with
  | int n => rfl
  | list vs => simp [listFree] at h
  | tuple vs => rfl

theorem makeImmutableList_of_listFreeAll {vs : List Value} (h : listFreeAll vs = true) :
    makeImmutableList vs = vs := by
  induction vs with
  | nil => rfl
  | cons v rest ih =>
    have h1 : listFree v = true ∧ listFreeAll rest = true := by
      simpa [listFreeAll, Bool.and_eq_true] using h
    simp [makeImmutableList, makeImmutable_of_listFree h1.1, ih h1.2]

mutual

theorem pyHash_isSome_of_listFree : ∀ (v : Value), listFree v = true → ∃ n, pyHash v = some n
  | .int n, _ => ⟨n % pyHashModulus, rfl⟩
  | .list _, h => by simp [listFree] at h
  | .tuple vs, h => by
    have hvf : listFreeAll vs = true := by simpa [listFree] using h
    obtain ⟨a, ha⟩ := pyHashFold_isSome vs xxPrime5 hvf
    exact ⟨xxFinal a vs.length, by simp [pyHash, ha]⟩

theorem pyHashFold_isSome :
    ∀ (vs : List Value) (acc : Nat), listFreeAll vs = true → ∃ h, pyHashFold acc vs = some h
  | [], acc, _ => ⟨acc, rfl⟩
  | v :: rest, acc, hf => by
    have h1 : listFree v = true ∧ listFreeAll rest = true := by
      simpa [listFreeAll, Bool.and_eq_true] using hf
    obtain ⟨hv0, hhv⟩ := pyHash_isSome_of_listFree v h1.1
    obtain ⟨h2, hh2⟩ := pyHashFold_isSome rest (xxRound acc hv0) h1.2
    exact ⟨h2, by simp [pyHashFold, hhv, hh2]⟩

end

theorem validateArgsAndKwargs_ok_iff (args : List Value) (kwargs : List (String × Value))
    (argNames : List String) (allowMissing : Bool) :
    validateArgsAndKwargs args kwargs argNames allowMissing = .ok () ↔
      (getDuplicates argNames = [] ∧
       (kwargs.map Prod.fst).filter (· ∈ argNames.take args.length) = [] ∧
       (kwargs.map Prod.fst).filter (· ∉ argNames) = [] ∧
       (allowMissing = false →
         (argNames.drop args.length).filter (· ∉ kwargs.map Prod.fst) = [])) := by
  simp only [validateArgsAndKwargs]
  split_ifs with h1 h2 h3 h4 <;>
    simp_all <;>
    cases allowMissing <;>
    simp_all
  all_goals exact ⟨h2, h3⟩

theorem recordEq_of_values_eq {r1 r2 : Record} {h : Nat} (hh : recordHash r1 = some h)
    (hv : r1.values = r2.values) : recordEq r1 r2 = some true := by
  have hh2 : recordHash r2 = some h := by rw [recordHash, ← hv]; exact hh
  simp [recordEq, hh, hh2]

theorem mkSerializable_full_kwargs (cls : String) (names : List String) (f : String → Value)
    (hnd : names.Nodup) :
    mkSerializable cls names [] (names.map (fun n => (n, f n))) =
      .ok ⟨cls, names, names.map (fun n => makeImmutable (f n))⟩ := by
  cases hn : names with
  | nil => rfl
  | cons m rest =>
    rw [← hn]
    have hkeys : ((names.map (fun n => (n, f n))).map Prod.fst) = names := by
      rw [List.map_map]
      have hid : (Prod.fst ∘ fun n => (n, f n)) = (id : String → String) := rfl
      rw [hid, List.map_id]
    have hval : validateArgsAndKwargs [] (names.map (fun n => (n, f n))) names false = .ok () := by
      rw [validateArgsAndKwargs_ok_iff]
      refine ⟨getDuplicates_eq_nil_of_nodup hnd, by simp, ?_, ?_⟩
      · rw [hkeys, List.filter_eq_nil_iff]
        intro a ha
        simp [ha]
      · intro _
        rw [hkeys]
        simp only [List.length_nil, List.drop_zero, List.filter_eq_nil_iff]
        intro a ha
        simp [ha]
    have hmerge : mergeKwargsToArgs [] (names.map (fun n => (n, f n))) names false =
        .ok (names.map f) := by
      rw [mergeKwargsToArgs, hval]
      simp only [List.length_nil, List.drop_zero, List.nil_append]
      congr 1
      apply List.map_congr_left
      intro a ha
      simp [kwargsGet, lookup_map_pair ha]
    have hne : (names.map (fun n => (n, f n))) ≠ [] := by
      rw [hn]; simp
    rw [mkSerializable, if_pos hne, hmerge]
    simp [List.map_map, Function.comp]

/-! ### Claim theorems -/

/-- C5: while a changeset is OPEN, reading a schema field returns the staged
value if one is staged, else the original record's value for that field;
reading or writing a field while the changeset is not OPEN (INITIALIZED or
CLOSED, in particular after commit) raises "Changeset is not active". -/
theorem c5_changeset_field_access (cs : Changeset) (f : String) (v : Value) :
    csGetField cs f = (if cs.state = .OPEN
      then .ok ((cs.diff.lookup f).getD (cs.original.getField f))
      else .error "Changeset is not active.  Attribute access not allowed") ∧
    csSetField cs f v = (if cs.state = .OPEN
      then .ok { cs with diff := dictInsert cs.diff f v }
      else .error "Changeset is not active.  Attribute access not allowed") := by
  constructor
  · by_cases h : cs.state = .OPEN
    · rw [if_pos h]
      simp only [csGetField, h]
      cases hl : cs.diff.lookup f <;> simp [hl]
    · rw [if_neg h]
      simp [csGetField, h]
  · by_cases h : cs.state = .OPEN
    · rw [if_pos h]
      simp [csSetField, h]
    · rw [if_neg h]
      simp [csSetField, h]

/-- C9: a record's hash is the Python hash of the ordered tuple of its field
values; the first call computes it and fills the cache, and every subsequent
call returns the identical value. -/
theorem c9_hash_cached (r : Record) (h : Nat) (hh : recordHash r = some h) :
    recordHash r = pyHash (.tuple r.values) ∧
    cachedHashCall r none = some (h, some h) ∧
    cachedHashCall r (some h) = some (h, some h) := by
  refine ⟨rfl, ?_, rfl⟩
  simp [cachedHashCall, hh]

theorem c9_hash_cached_witness :
    cachedHashCall ⟨"A", ["x"], [.int 7]⟩ none =
      some (12247872417239486770, some 12247872417239486770) :=
  (c9_hash_cached ⟨"A", ["x"], [.int 7]⟩ 12247872417239486770 rfl).2.1

/-- C10: `make_immutable` converts only lists; a tuple is returned unchanged
without recursing into its elements, so a tuple field value whose elements
are mutable lists is stored with those inner lists still mutable. -/
theorem c10_tuple_unchanged :
    (∀ vs : List Value, makeImmutable (.tuple vs) = .tuple vs) ∧
    (∀ n : Nat, makeImmutable (.int n) = .int n) ∧
    (∀ vs : List Value, makeImmutable (.list vs) = .tuple (makeImmutableList vs)) ∧
    mkSerializable "A" ["x"] [.tuple [.list [.int 2]]] [] =
      .ok ⟨"A", ["x"], [.tuple [.list [.int 2]]]⟩ :=
  ⟨fun _ => rfl, fun _ => rfl, fun _ => rfl, rfl⟩

/-- C3: a class-level serialize failure caused by one field's sedes surfaces
as an ObjectSerializationError naming the field at the failing index in
declaration order — for a 3-field schema (a, b, c), a failure in field b's
sedes resolves to field "b" — while a wrapped list error that carries no
element index yields field None and the "underlying list" message. -/
theorem c3_serialize_field_attribution :
    (∀ (a b c : String) (s1 s2 s3 : Value → Option Value) (r : Record)
       (v1 v2 v3 w1 : Value),
       r.values = [v1, v2, v3] → s1 v1 = some w1 → s2 v2 = none →
       serializableSerialize [a, b, c] [s1, s2, s3] r =
         .error ⟨some b, "Serialization failed because of field"⟩) ∧
    (∀ (names : List String) (sedes : List (Value → Option Value)) (r : Record)
       (i : Nat),
       listSerialize sedes r.values = .error (.elementAt i) →
       serializableSerialize names sedes r =
         .error ⟨names[i]?, "Serialization failed because of field"⟩) ∧
    (∀ (names : List String) (sedes : List (Value → Option Value)) (r : Record),
       r.values.length ≠ sedes.length →
       serializableSerialize names sedes r =
         .error ⟨none, "Serialization failed because of underlying list"⟩) := by
  refine ⟨?_, ?_, ?_⟩
  · intro a b c s1 s2 s3 r v1 v2 v3 w1 hv h1 h2
    simp [serializableSerialize, listSerialize, hv, listSerializeFrom, h1, h2, resolveObjError]
  · intro names sedes r i hl
    simp [serializableSerialize, hl, resolveObjError]
  · intro names sedes r hlen
    simp [serializableSerialize, listSerialize, hlen, resolveObjError]

theorem c3_serialize_field_attribution_witness :
    serializableSerialize ["a", "b", "c"]
        [fun v => some v, fun _ => none, fun v => some v]
        ⟨"A", ["a", "b", "c"], [.int 1, .int 2, .int 3]⟩ =
      .error ⟨some "b", "Serialization failed because of field"⟩ :=
  c3_serialize_field_attribution.1 "a" "b" "c" _ _ _ _ (.int 1) (.int 2) (.int 3)
    (.int 1) rfl rfl rfl

/-- C4: commit fails unless the changeset is OPEN; when OPEN it returns the
record built by the original's class constructor taking, per field in schema
order, the staged value if one is staged else the original's value (stored
after the constructor's immutable projection), and it leaves the changeset
CLOSED. -/
theorem c4_commit (cs : Changeset) (hnd : cs.original.names.Nodup) :
    (cs.state ≠ .OPEN → csCommit cs =
      .error (.stateError "Cannot open Changeset which is not in the OPEN state")) ∧
    (cs.state = .OPEN → csCommit cs =
      .ok (⟨cs.original.cls, cs.original.names,
            cs.original.names.map (fun n =>
              makeImmutable ((cs.diff.lookup n).getD (cs.original.getField n)))⟩,
           { cs with state := .CLOSED })) := by
  constructor
  · intro h
    simp [csCommit, buildRlp, h]
  · intro h
    have hb : buildRlp cs =
        .ok ⟨cs.original.cls, cs.original.names,
             cs.original.names.map (fun n =>
               makeImmutable ((cs.diff.lookup n).getD (cs.original.getField n)))⟩ := by
      have hrw := mkSerializable_full_kwargs cs.original.cls cs.original.names
        (fun n => (cs.diff.lookup n).getD (cs.original.getField n)) hnd
      simp [buildRlp, h, hrw]
    rw [csCommit, hb, csClose, if_pos h]

theorem c4_commit_witness :
    csCommit ⟨⟨"A", ["x", "y"], [.int 1, .int 2]⟩, [("x", .int 5)], .OPEN⟩ =
      .ok (⟨"A", ["x", "y"], [.int 5, .int 2]⟩,
           ⟨⟨"A", ["x", "y"], [.int 1, .int 2]⟩, [("x", .int 5)], .CLOSED⟩) :=
  (c4_commit ⟨⟨"A", ["x", "y"], [.int 1, .int 2]⟩, [("x", .int 5)], .OPEN⟩
    (by decide)).2 rfl

/-- C8: record construction fails when a field name is supplied both
positionally and by name, when a named key is not a schema field name, or
when some schema field is given neither positionally nor by name; a complete,
non-conflicting assignment (no conflict, no unknown key, every field covered,
no excess positional arguments) succeeds. `BaseSerializable.__init__` never
allows partial construction. -/
theorem c8_construction_validation (cls : String) (names : List String)
    (args : List Value) (kwargs : List (String × Value)) (hnd : names.Nodup) :
    (((∃ n, n ∈ kwargs.map Prod.fst ∧ n ∈ names.take args.length) ∨
      (∃ n, n ∈ kwargs.map Prod.fst ∧ n ∉ names) ∨
      (∃ n, n ∈ names.drop args.length ∧ n ∉ kwargs.map Prod.fst)) →
      (mkSerializable cls names args kwargs).isOk = false) ∧
    (args.length ≤ names.length →
     (∀ n ∈ kwargs.map Prod.fst, n ∈ names ∧ n ∉ names.take args.length) →
     (∀ n ∈ names.drop args.length, n ∈ kwargs.map Prod.fst) →
     (mkSerializable cls names args kwargs).isOk = true) := by
  constructor
  · intro hbad
    cases he : mkSerializable cls names args kwargs with
    | error e => rfl
    | ok r =>
      exfalso
      by_cases hk : kwargs = []
      · subst hk
        have hlen : args.length = names.length := by
          by_cases hl : args.length = names.length
          · exact hl
          · rw [mkSerializable] at he
            simp [hl] at he
        have hdrop : names.drop args.length = [] := by
          rw [List.drop_eq_nil_iff]
          omega
        rcases hbad with ⟨n, hn, _⟩ | ⟨n, hn, _⟩ | ⟨n, hn, _⟩
        · simp at hn
        · simp at hn
        · rw [hdrop] at hn
          simp at hn
      · have hne : (kwargs ≠ []) := hk
        rw [mkSerializable, if_pos hne] at he
        cases hm : mergeKwargsToArgs args kwargs names false with
        | error e2 => rw [hm] at he; simp at he
        | ok fv =>
          have hval : validateArgsAndKwargs args kwargs names false = .ok () := by
            rw [mergeKwargsToArgs] at hm
            cases hv : validateArgsAndKwargs args kwargs names false with
            | error e3 => rw [hv] at hm; simp at hm
            | ok u => cases u; rfl
          rw [validateArgsAndKwargs_ok_iff] at hval
          obtain ⟨_, hdup, hunk, hmiss⟩ := hval
          rcases hbad with ⟨n, hn, hn2⟩ | ⟨n, hn, hn2⟩ | ⟨n, hn, hn2⟩
          · have := List.filter_eq_nil_iff.mp hdup n hn
            simp [hn2] at this
          · have := List.filter_eq_nil_iff.mp hunk n hn
            simp [hn2] at this
          · have := List.filter_eq_nil_iff.mp (hmiss rfl) n hn
            simp [hn2] at this
  · intro hlen hkw hcov
    by_cases hk : kwargs = []
    · subst hk
      have hdrop : names.drop args.length = [] := by
        rw [List.eq_nil_iff_forall_not_mem]
        intro n hn
        have := hcov n hn
        simp at this
      have heq : args.length = names.length := by
        have := List.drop_eq_nil_iff.mp hdrop
        omega
      rw [mkSerializable]
      simp [heq, Except.isOk, Except.toBool]
    · have hval : validateArgsAndKwargs args kwargs names false = .ok () := by
        rw [validateArgsAndKwargs_ok_iff]
        refine ⟨getDuplicates_eq_nil_of_nodup hnd, ?_, ?_, ?_⟩
        · rw [List.filter_eq_nil_iff]
          intro n hn
          simp [(hkw n hn).2]
        · rw [List.filter_eq_nil_iff]
          intro n hn
          simp [(hkw n hn).1]
        · intro _
          rw [List.filter_eq_nil_iff]
          intro n hn
          simp [hcov n hn]
      have hm : mergeKwargsToArgs args kwargs names false =
          .ok (args ++ (names.drop args.length).map (kwargsGet kwargs)) := by
        rw [mergeKwargsToArgs, hval]
      rw [mkSerializable, if_pos hk, hm]
      have hc : args.length + (names.length - args.length) = names.length := by omega
      simp [hc, Except.isOk, Except.toBool]

theorem c8_construction_validation_witness :
    (mkSerializable "A" ["x", "y"] [.int 1] [("x", .int 2)]).isOk = false ∧
    (mkSerializable "A" ["x", "y"] [.int 1] [("z", .int 2)]).isOk = false ∧
    (mkSerializable "A" ["x", "y"] [.int 1] []).isOk = false ∧
    (mkSerializable "A" ["x", "y"] [.int 1] [("y", .int 2)]).isOk = true :=
  ⟨(c8_construction_validation "A" ["x", "y"] [.int 1] [("x", .int 2)] (by decide)).1
      (Or.inl ⟨"x", by decide, by decide⟩),
   (c8_construction_validation "A" ["x", "y"] [.int 1] [("z", .int 2)] (by decide)).1
      (Or.inr (Or.inl ⟨"z", by decide, by decide⟩)),
   (c8_construction_validation "A" ["x", "y"] [.int 1] [] (by decide)).1
      (Or.inr (Or.inr ⟨"y", by decide, by decide⟩)),
   (c8_construction_validation "A" ["x", "y"] [.int 1] [("y", .int 2)] (by decide)).2
      (by decide) (by decide) (by decide)⟩

/-- C1 as stated is false on the code: `__eq__` never consults the concrete
schema type, so two records of different `Serializable` subclasses with the
same single field value compare equal. -/
theorem c1_equality_counterexample :
    (Record.mk "A" ["x"] [.int 1]).cls ≠ (Record.mk "B" ["x"] [.int 1]).cls ∧
    recordEq ⟨"A", ["x"], [.int 1]⟩ ⟨"B", ["x"], [.int 1]⟩ = some true := by
  exact ⟨by simp, rfl⟩

/-- C1, amended: `r1 == r2` holds iff the Python hashes of the two records'
ordered field-value tuples are equal (the `isinstance` guard holds for any
two records); in particular, records with identical stored field-value
sequences compare equal regardless of their concrete subclass. The same-type
requirement of the original claim does not hold. -/
theorem c1_equality_amended (r1 r2 : Record) (h1 h2 : Nat)
    (hh1 : recordHash r1 = some h1) (hh2 : recordHash r2 = some h2) :
    (recordEq r1 r2 = some true ↔ h1 = h2) ∧
    (r1.values = r2.values → recordEq r1 r2 = some true) := by
  constructor
  · simp [recordEq, hh1, hh2]
  · intro hv
    exact recordEq_of_values_eq hh1 hv

theorem c1_equality_amended_witness :
    recordEq ⟨"A", ["x"], [.int 1]⟩ ⟨"B", ["x"], [.int 1]⟩ = some true :=
  (c1_equality_amended ⟨"A", ["x"], [.int 1]⟩ ⟨"B", ["x"], [.int 1]⟩
    11802529618835948721 11802529618835948721 rfl rfl).2 rfl

/-- C2 as stated is false on the code: the mutable sequence `[[1]]` and the
immutable sequence `([1],)` are element-wise Python-equal, yet comparing the
two constructed records raises `TypeError` (`none`) instead of yielding
`True`, because the stored projection of `([1],)` keeps its inner mutable
list and is unhashable. -/
theorem c2_cross_representation_counterexample :
    pyEqList [Value.list [.int 1]] [Value.list [.int 1]] = true ∧
    mkSerializable "A" ["f"] [.list [.list [.int 1]]] [] =
      .ok ⟨"A", ["f"], [.tuple [.tuple [.int 1]]]⟩ ∧
    mkSerializable "A" ["f"] [.tuple [.list [.int 1]]] [] =
      .ok ⟨"A", ["f"], [.tuple [.list [.int 1]]]⟩ ∧
    recordEq ⟨"A", ["f"], [.tuple [.tuple [.int 1]]]⟩
      ⟨"A", ["f"], [.tuple [.list [.int 1]]]⟩ = none :=
  ⟨rfl, rfl, rfl, rfl⟩

/-- C2, amended: when the immutable (tuple-like) sequence contains no nested
mutable list, a record whose field is set from any element-wise-equal mutable
(list-like) sequence equals the record whose field is set from the tuple,
regardless of the two records' concrete subclasses; with a nested mutable
list the comparison instead raises. -/
theorem c2_cross_representation_amended (c1 c2 f : String) (xs ys : List Value)
    (r1 r2 : Record) (hfree : listFreeAll ys = true) (heq : pyEqList xs ys = true)
    (h1 : mkSerializable c1 [f] [.list xs] [] = .ok r1)
    (h2 : mkSerializable c2 [f] [.tuple ys] [] = .ok r2) :
    recordEq r1 r2 = some true := by
  have hxy : xs = ys := pyEqList_listFree_eq xs ys hfree heq
  have he1 : mkSerializable c1 [f] [.list xs] [] =
      .ok ⟨c1, [f], [.tuple (makeImmutableList xs)]⟩ := rfl
  have he2 : mkSerializable c2 [f] [.tuple ys] [] =
      .ok ⟨c2, [f], [.tuple ys]⟩ := rfl
  rw [he1] at h1
  rw [he2] at h2
  have hr1 : r1 = ⟨c1, [f], [.tuple (makeImmutableList xs)]⟩ :=
    (Except.ok.inj h1).symm
  have hr2 : r2 = ⟨c2, [f], [.tuple ys]⟩ := (Except.ok.inj h2).symm
  have hmi : makeImmutableList xs = ys := by
    rw [hxy]
    exact makeImmutableList_of_listFreeAll hfree
  have hfree1 : listFree (.tuple [Value.tuple ys]) = true := by
    simp [listFree, listFreeAll, hfree]
  obtain ⟨h, hh⟩ := pyHash_isSome_of_listFree (.tuple [Value.tuple ys]) hfree1
  have hh1 : recordHash r1 = some h := by
    rw [hr1, recordHash]
    simp only [hmi]
    exact hh
  have hv : r1.values = r2.values := by rw [hr1, hr2]; simp [hmi]
  exact recordEq_of_values_eq hh1 hv

theorem c2_cross_representation_amended_witness :
    recordEq ⟨"A", ["f"], [.tuple [.int 1, .int 2]]⟩
      ⟨"B", ["f"], [.tuple [.int 1, .int 2]]⟩ = some true :=
  c2_cross_representation_amended "A" "B" "f" [.int 1, .int 2] [.int 1, .int 2]
    ⟨"A", ["f"], [.tuple [.int 1, .int 2]]⟩ ⟨"B", ["f"], [.tuple [.int 1, .int 2]]⟩
    rfl rfl rfl rfl

/-- C6 as stated is false on the code: a subclass redeclaring exactly its
single parent's field set is accepted at class creation, although that set is
not a strict superset of the parent's. -/
theorem c6_superset_counterexample :
    mkSerializableClass [["a", "b"]] ["a", "b"] = .ok ["a", "b"] ∧
    ¬((∀ f ∈ (["a", "b"] : List String), f ∈ (["a", "b"] : List String)) ∧
      ∃ f ∈ (["a", "b"] : List String), f ∉ (["a", "b"] : List String)) := by
  constructor
  · rfl
  · intro ⟨_, f, hf, hnf⟩
    exact hnf hf

/-- C6, amended: class creation with declared fields and parent schemas
succeeds iff the declared names are duplicate-free, valid identifiers, and a
superset — not necessarily strict — of every parent schema's field names;
omitting any parent field raises a declaration-time error listing exactly the
missing names (before any instance can be constructed). -/
theorem c6_superset_amended (parents : List (List String)) (declared : List String) :
    (mkSerializableClass parents declared = .ok declared ↔
      (getDuplicates declared = [] ∧
       declared.filter (fun n => !isValidIdentifier n) = [] ∧
       ∀ ps ∈ parents, ∀ f ∈ ps, f ∈ declared)) ∧
    (getDuplicates declared = [] →
     declared.filter (fun n => !isValidIdentifier n) = [] →
     (∃ f, f ∈ parents.flatten ∧ f ∉ declared) →
     (mkSerializableClass parents declared =
        .error (.missingFields (parents.flatten.filter (fun f => f ∉ declared))) ∧
      ∀ f, f ∈ parents.flatten.filter (fun g => g ∉ declared) ↔
        (f ∈ parents.flatten ∧ f ∉ declared))) := by
  constructor
  · simp only [mkSerializableClass]
    split_ifs with hd hi hm
    · refine iff_of_false (fun h => h) ?_
      intro h
      exact hd h.1
    · refine iff_of_false (fun h => h) ?_
      intro h
      exact hi h.2.1
    · refine iff_of_false (fun h => h) ?_
      intro h
      apply hm
      rw [List.filter_eq_nil_iff]
      intro f hf
      rw [List.mem_flatten] at hf
      obtain ⟨ps, hps, hfps⟩ := hf
      simp [h.2.2 ps hps f hfps]
    · refine iff_of_true rfl ⟨not_not.mp hd, not_not.mp hi, ?_⟩
      have h3 := not_not.mp hm
      intro ps hps f hf
      have := List.filter_eq_nil_iff.mp h3 f (List.mem_flatten.mpr ⟨ps, hps, hf⟩)
      simpa using this
  · intro h1 h2 hex
    obtain ⟨f0, hf0, hnf0⟩ := hex
    have hm : parents.flatten.filter (fun f => decide (f ∉ declared)) ≠ [] := by
      intro hnil
      have := List.filter_eq_nil_iff.mp hnil f0 hf0
      simp [hnf0] at this
    constructor
    · simp only [mkSerializableClass]
      rw [if_neg (by simp [h1]), if_neg (by simp [h2]), if_pos hm]
    · intro f
      simp only [List.mem_filter, List.mem_flatten, decide_eq_true_eq]

theorem c6_superset_amended_witness :
    mkSerializableClass [["a", "b"]] ["a"] = .error (.missingFields ["b"]) ∧
    mkSerializableClass [["a", "b"]] ["a", "b", "c"] = .ok ["a", "b", "c"] :=
  ⟨((c6_superset_amended [["a", "b"]] ["a"]).2 rfl rfl
      ⟨"b", by decide, by decide⟩).1,
   (c6_superset_amended [["a", "b"]] ["a", "b", "c"]).1.mpr
      ⟨rfl, rfl, by decide⟩⟩

/-- C7 as stated is false on the code: the stored field value is
`make_immutable` of the input, which does not recurse into tuples, so a
mutable list nested inside a tuple survives construction unconverted; the
stored value differs from the specification's any-depth immutable
projection. -/
theorem c7_immutable_projection_counterexample :
    mkSerializable "A" ["x"] [.tuple [.list [.int 1]]] [] =
      .ok ⟨"A", ["x"], [.tuple [.list [.int 1]]]⟩ ∧
    Value.tuple [.list [.int 1]] ≠ deepImmutable (.tuple [.list [.int 1]]) ∧
    listFree (Value.tuple [.list [.int 1]]) = false :=
  ⟨rfl, by decide, rfl⟩

/-- C7, amended: each stored field value is the `make_immutable` projection of
the value passed in (positionally or by name): lists are converted to tuples
recursively through nested lists, while tuples and atoms are returned
unchanged, so a mutable sequence nested inside a tuple is not converted. -/
theorem c7_immutable_projection_amended :
    (∀ (cls : String) (names : List String) (args : List Value)
       (kwargs : List (String × Value)) (fv : List Value) (r : Record),
       (if kwargs ≠ [] then mergeKwargsToArgs args kwargs names false
        else .ok args) = .ok fv →
       mkSerializable cls names args kwargs = .ok r →
       r.values = fv.map makeImmutable) ∧
    (∀ vs, makeImmutable (.list vs) = .tuple (makeImmutableList vs)) ∧
    (∀ vs, makeImmutable (.tuple vs) = .tuple vs) ∧
    (∀ n, makeImmutable (.int n) = .int n) := by
  refine ⟨?_, fun _ => rfl, fun _ => rfl, fun _ => rfl⟩
  intro cls names args kwargs fv r hfv hok
  rw [mkSerializable, hfv] at hok
  by_cases hlen : fv.length = names.length
  · simp only [hlen, ne_eq, not_true_eq_false, if_false, ite_false,
      Except.ok.injEq] at hok
    rw [← hok]
  · simp [hlen] at hok

theorem c7_immutable_projection_amended_witness :
    (⟨"A", ["x", "y"], [.tuple [.int 1], .int 2]⟩ : Record).values =
      [Value.list [.int 1], Value.int 2].map makeImmutable :=
  c7_immutable_projection_amended.1 "A" ["x", "y"] [.list [.int 1]]
    [("y", .int 2)] [.list [.int 1], .int 2]
    ⟨"A", ["x", "y"], [.tuple [.int 1], .int 2]⟩ rfl rfl

end PyRlp
